import Mathlib

/-!
Verification of the elastauth credential proxy.

The development shallowly embeds the three Python source files
(`src/app.py`, `src/models/cache.py`, `src/models/elasticsearch.py`).
Byte strings are `List Nat` with every element `< 256`; machine bytes are
modelled as `Nat` with an explicit `% 256` where overflow matters.  The
AES block transform and the MD5 digest are opaque primitives of the
Python crypto library, so they enter the embedding as parameters
(`CipherPrims`); every theorem about the cipher is proved for an
arbitrary block transform, hence in particular for AES.
-/

namespace Elastauth

/-! ## base64 (Python `base64.b64encode` / `b64decode`, standard alphabet) -/

/-- Standard base64 alphabet: sextet value to ASCII code. -/
def b64chr (n : Nat) : Nat :=
  if n < 26 then 65 + n
  else if n < 52 then 71 + n
  else if n < 62 then n - 4
  else if n = 62 then 43
  else 47

/-- Inverse of `b64chr` on the alphabet, ASCII code to sextet value. -/
def b64dec (c : Nat) : Nat :=
  if 65 ≤ c ∧ c ≤ 90 then c - 65
  else if 97 ≤ c ∧ c ≤ 122 then c - 71
  else if 48 ≤ c ∧ c ≤ 57 then c + 4
  else if c = 43 then 62
  else 63

/-- base64 encoding of a byte list, parametrised by the alphabet map so
that the standard and the URL-safe variants share one definition.
Code 61 is the ASCII pad character. -/
def b64encodeWith (chr : Nat → Nat) : List Nat → List Nat
  | a :: b :: c :: rest =>
      chr (a / 4) :: chr ((a % 4) * 16 + b / 16) :: chr ((b % 16) * 4 + c / 64) ::
        chr (c % 64) :: b64encodeWith chr rest
  | [a, b] => [chr (a / 4), chr ((a % 4) * 16 + b / 16), chr ((b % 16) * 4), 61]
  | [a] => [chr (a / 4), chr ((a % 4) * 16), 61, 61]
  | [] => []

/-- Python `base64.b64encode` on bytes. -/
def b64encode (bs : List Nat) : List Nat := b64encodeWith b64chr bs

/-- Python `base64.b64decode` on well-formed input: four characters at a
time, stopping at the pad character. -/
def b64decode : List Nat → List Nat
  | c1 :: c2 :: c3 :: c4 :: rest =>
      if c3 = 61 then [b64dec c1 * 4 + b64dec c2 / 16]
      else if c4 = 61 then
        [b64dec c1 * 4 + b64dec c2 / 16, (b64dec c2 % 16) * 16 + b64dec c3 / 4]
      else
        (b64dec c1 * 4 + b64dec c2 / 16) :: ((b64dec c2 % 16) * 16 + b64dec c3 / 4) ::
          ((b64dec c3 % 4) * 64 + b64dec c4) :: b64decode rest
  | _ => []

theorem b64dec_b64chr {n : Nat} (h : n < 64) : b64dec (b64chr n) = n := by
  simp only [b64chr, b64dec]
  split_ifs <;> omega

theorem b64chr_ne_pad {n : Nat} (h : n < 64) : b64chr n ≠ 61 := by
  simp only [b64chr]
  split_ifs <;> omega

theorem b64decode_pad2 (c1 c2 : Nat) :
    b64decode [c1, c2, 61, 61] = [b64dec c1 * 4 + b64dec c2 / 16] := by
  simp [b64decode]

theorem b64decode_pad1 (c1 c2 c3 : Nat) (h3 : c3 ≠ 61) :
    b64decode [c1, c2, c3, 61] =
      [b64dec c1 * 4 + b64dec c2 / 16, (b64dec c2 % 16) * 16 + b64dec c3 / 4] := by
  simp [b64decode, h3]

theorem b64decode_quad (c1 c2 c3 c4 : Nat) (rest : List Nat) (h3 : c3 ≠ 61)
    (h4 : c4 ≠ 61) :
    b64decode (c1 :: c2 :: c3 :: c4 :: rest) =
      (b64dec c1 * 4 + b64dec c2 / 16) :: ((b64dec c2 % 16) * 16 + b64dec c3 / 4) ::
        ((b64dec c3 % 4) * 64 + b64dec c4) :: b64decode rest := by
  simp [b64decode, h3, h4]

theorem b64decode_b64encode : ∀ bs : List Nat, (∀ b ∈ bs, b < 256) →
    b64decode (b64encode bs) = bs
  | [], _ => rfl
  | [a], h => by
      have ha : a < 256 := h a (by simp)
      have h1 : a / 4 < 64 := by omega
      have h2 : (a % 4) * 16 < 64 := by omega
      show b64decode [b64chr (a / 4), b64chr ((a % 4) * 16), 61, 61] = [a]
      rw [b64decode_pad2, b64dec_b64chr h1, b64dec_b64chr h2]
      have e1 : a / 4 * 4 + a % 4 * 16 / 16 = a := by omega
      rw [e1]
  | [a, b], h => by
      have ha : a < 256 := h a (by simp)
      have hb : b < 256 := h b (by simp)
      have h1 : a / 4 < 64 := by omega
      have h2 : (a % 4) * 16 + b / 16 < 64 := by omega
      have h3 : (b % 16) * 4 < 64 := by omega
      show b64decode [b64chr (a / 4), b64chr ((a % 4) * 16 + b / 16),
        b64chr ((b % 16) * 4), 61] = [a, b]
      rw [b64decode_pad1 _ _ _ (b64chr_ne_pad h3),
        b64dec_b64chr h1, b64dec_b64chr h2, b64dec_b64chr h3]
      have e1 : a / 4 * 4 + ((a % 4) * 16 + b / 16) / 16 = a := by omega
      have e2 : ((a % 4) * 16 + b / 16) % 16 * 16 + (b % 16) * 4 / 4 = b := by omega
      rw [e1, e2]
  | a :: b :: c :: rest, h => by
      have ha : a < 256 := h a (by simp)
      have hb : b < 256 := h b (by simp)
      have hc : c < 256 := h c (by simp)
      have hrest : ∀ x ∈ rest, x < 256 := fun x hx => h x (by simp [hx])
      have h1 : a / 4 < 64 := by omega
      have h2 : (a % 4) * 16 + b / 16 < 64 := by omega
      have h3 : (b % 16) * 4 + c / 64 < 64 := by omega
      have h4 : c % 64 < 64 := by omega
      show b64decode (b64chr (a / 4) :: b64chr ((a % 4) * 16 + b / 16) ::
        b64chr ((b % 16) * 4 + c / 64) :: b64chr (c % 64) :: b64encode rest) =
        a :: b :: c :: rest
      rw [b64decode_quad _ _ _ _ _ (b64chr_ne_pad h3) (b64chr_ne_pad h4),
        b64dec_b64chr h1, b64dec_b64chr h2, b64dec_b64chr h3, b64dec_b64chr h4,
        b64decode_b64encode rest hrest]
      have e1 : a / 4 * 4 + ((a % 4) * 16 + b / 16) / 16 = a := by omega
      have e2 : ((a % 4) * 16 + b / 16) % 16 * 16 + ((b % 16) * 4 + c / 64) / 4 = b := by
        omega
      have e3 : ((b % 16) * 4 + c / 64) % 4 * 64 + c % 64 = c := by omega
      rw [e1, e2, e3]

/-! ## URL-safe base64 and `secrets.token_urlsafe` -/

/-- URL-safe alphabet of `base64.urlsafe_b64encode`: 62 maps to `-`,
63 maps to `_`. -/
def b64urlchr (n : Nat) : Nat :=
  if n = 62 then 45
  else if n = 63 then 95
  else b64chr n

/-- Python `secrets.token_urlsafe(nbytes)` applied to the given random
bytes: URL-safe base64 with the trailing pad characters stripped
(pad code 61 only ever occurs as a trailing run). -/
def token_urlsafe (bs : List Nat) : List Nat :=
  (b64encodeWith b64urlchr bs).takeWhile (fun c => c ≠ 61)

theorem b64urlchr_ne_pad {n : Nat} (h : n < 64) : b64urlchr n ≠ 61 := by
  have := b64chr_ne_pad h
  simp only [b64urlchr]
  split_ifs <;> omega

theorem token_urlsafe_length : ∀ bs : List Nat, (∀ b ∈ bs, b < 256) →
    (token_urlsafe bs).length = (bs.length * 8 + 5) / 6
  | [], _ => rfl
  | [a], h => by
      have ha : a < 256 := h a (by simp)
      have h1 : a / 4 < 64 := by omega
      have h2 : (a % 4) * 16 < 64 := by omega
      simp only [token_urlsafe, b64encodeWith]
      rw [List.takeWhile_cons_of_pos (by simp [b64urlchr_ne_pad h1]),
        List.takeWhile_cons_of_pos (by simp [b64urlchr_ne_pad h2]),
        List.takeWhile_cons_of_neg (by simp)]
      simp
  | [a, b], h => by
      have ha : a < 256 := h a (by simp)
      have hb : b < 256 := h b (by simp)
      have h1 : a / 4 < 64 := by omega
      have h2 : (a % 4) * 16 + b / 16 < 64 := by omega
      have h3 : (b % 16) * 4 < 64 := by omega
      simp only [token_urlsafe, b64encodeWith]
      rw [List.takeWhile_cons_of_pos (by simp [b64urlchr_ne_pad h1]),
        List.takeWhile_cons_of_pos (by simp [b64urlchr_ne_pad h2]),
        List.takeWhile_cons_of_pos (by simp [b64urlchr_ne_pad h3]),
        List.takeWhile_cons_of_neg (by simp)]
      simp
  | a :: b :: c :: rest, h => by
      have ha : a < 256 := h a (by simp)
      have hb : b < 256 := h b (by simp)
      have hc : c < 256 := h c (by simp)
      have hrest : ∀ x ∈ rest, x < 256 := fun x hx => h x (by simp [hx])
      have h1 : a / 4 < 64 := by omega
      have h2 : (a % 4) * 16 + b / 16 < 64 := by omega
      have h3 : (b % 16) * 4 + c / 64 < 64 := by omega
      have h4 : c % 64 < 64 := by omega
      have ih := token_urlsafe_length rest hrest
      simp only [token_urlsafe, b64encodeWith] at ih ⊢
      rw [List.takeWhile_cons_of_pos (by simp [b64urlchr_ne_pad h1]),
        List.takeWhile_cons_of_pos (by simp [b64urlchr_ne_pad h2]),
        List.takeWhile_cons_of_pos (by simp [b64urlchr_ne_pad h3]),
        List.takeWhile_cons_of_pos (by simp [b64urlchr_ne_pad h4])]
      simp only [List.length_cons, ih]
      omega

/-! ## AES-CFB (pycryptodome `AES.MODE_CFB`, default 8-bit segments) -/

/-- Abstract crypto primitives of the Python libraries: the MD5 digest
(`hashlib.md5(...).digest()`, 16 bytes) and the AES block encryption
(key bytes to a permutation of 16-byte blocks).  All cipher theorems are
proved for arbitrary primitives, hence for the real ones. -/
structure CipherPrims where
  md5 : List Nat → List Nat
  aesBlock : List Nat → List Nat → List Nat

/-- CFB-8 encryption: each plaintext byte is xored with the first byte
of the block transform applied to the shift register; the register then
shifts in the produced ciphertext byte. -/
def cfbEncrypt (E : List Nat → List Nat) : List Nat → List Nat → List Nat
  | _, [] => []
  | sr, p :: ps =>
      let c := p ^^^ ((E sr).headD 0 % 256)
      c :: cfbEncrypt E (sr.drop 1 ++ [c]) ps

/-- CFB-8 decryption: the same keystream, with the ciphertext byte
shifted into the register. -/
def cfbDecrypt (E : List Nat → List Nat) : List Nat → List Nat → List Nat
  | _, [] => []
  | sr, c :: cs =>
      let p := c ^^^ ((E sr).headD 0 % 256)
      p :: cfbDecrypt E (sr.drop 1 ++ [c]) cs

theorem cfbDecrypt_cfbEncrypt (E : List Nat → List Nat) :
    ∀ (ps sr : List Nat), cfbDecrypt E sr (cfbEncrypt E sr ps) = ps
  | [], _ => rfl
  | p :: ps, sr => by
      simp only [cfbEncrypt, cfbDecrypt, Nat.xor_cancel_right]
      rw [cfbDecrypt_cfbEncrypt E ps]

theorem cfbEncrypt_bytes_lt (E : List Nat → List Nat) :
    ∀ (ps sr : List Nat), (∀ p ∈ ps, p < 256) → ∀ b ∈ cfbEncrypt E sr ps, b < 256
  | [], _, _ => by simp [cfbEncrypt]
  | p :: ps, sr, h => by
      have hp : p < 256 := h p (by simp)
      have hk : (E sr).headD 0 % 256 < 256 := Nat.mod_lt _ (by omega)
      have hpow : (2 : Nat) ^ 8 = 256 := by norm_num
      have hc : p ^^^ ((E sr).headD 0 % 256) < 256 := by
        have := Nat.xor_lt_two_pow (x := p) (y := (E sr).headD 0 % 256) (n := 8)
          (by omega) (by omega)
        omega
      intro b hb
      simp only [cfbEncrypt, List.mem_cons] at hb
      rcases hb with h1 | h2
      · omega
      · exact cfbEncrypt_bytes_lt E ps _ (fun x hx => h x (by simp [hx])) b h2

/-! ## CredentialCipher (`app.py` lines 16-17 and 55-71) -/

/-- `app.py` line 16. -/
def PASSWORD_LENGTH : Nat := 13

/-- `app.py` line 17. -/
def BLOCK_SIZE : Nat := 16

/-- `app.py` `trans`: derive the AES key as the MD5 digest of the
passphrase. -/
def trans (P : CipherPrims) (key : List Nat) : List Nat := P.md5 key

/-- `app.py` `encrypt`: AES-CFB with a fresh 16-byte IV, returning
base64 of `IV ++ ciphertext`.  The IV, produced by `Random.new().read`,
is an explicit argument. -/
def encrypt (P : CipherPrims) (message passphrase IV : List Nat) : List Nat :=
  b64encode (IV ++ cfbEncrypt (P.aesBlock (trans P passphrase)) IV message)

/-- `app.py` `decrypt`: base64-decode, split the first 16 bytes as the
IV, decrypt the remainder with the key derived from the passphrase. -/
def decrypt (P : CipherPrims) (encrypted passphrase : List Nat) : List Nat :=
  let e := b64decode encrypted
  cfbDecrypt (P.aesBlock (trans P passphrase)) (e.take BLOCK_SIZE) (e.drop BLOCK_SIZE)

/-- Cipher round trip for any primitives, any passphrase, any 16-byte IV
and any plaintext byte string. -/
theorem decrypt_encrypt (P : CipherPrims) (message passphrase IV : List Nat)
    (hIVlen : IV.length = BLOCK_SIZE) (hIV : ∀ b ∈ IV, b < 256)
    (hmsg : ∀ b ∈ message, b < 256) :
    decrypt P (encrypt P message passphrase IV) passphrase = message := by
  have hbytes : ∀ b ∈ IV ++ cfbEncrypt (P.aesBlock (trans P passphrase)) IV message,
      b < 256 := by
    intro b hb
    rcases List.mem_append.mp hb with h1 | h2
    · exact hIV b h1
    · exact cfbEncrypt_bytes_lt _ message IV hmsg b h2
  simp only [decrypt, encrypt, b64decode_b64encode _ hbytes]
  rw [List.take_append_of_le_length (by omega), List.drop_append_of_le_length (by omega)]
  simp only [BLOCK_SIZE] at hIVlen ⊢
  rw [List.take_of_length_le (by omega), List.drop_of_length_le (by omega)]
  simp [cfbDecrypt_cfbEncrypt]

/-! ## UTF-8 (Python `bytes(s, encoding="utf-8")` and `bytes.decode("utf-8")`) -/

/-- UTF-8 encoding of one code point. -/
def utf8Bytes (c : Nat) : List Nat :=
  if c < 0x80 then [c]
  else if c < 0x800 then [0xC0 + c / 64, 0x80 + c % 64]
  else if c < 0x10000 then [0xE0 + c / 4096, 0x80 + c / 64 % 64, 0x80 + c % 64]
  else [0xF0 + c / 0x40000, 0x80 + c / 4096 % 64, 0x80 + c / 64 % 64, 0x80 + c % 64]

/-- Python `bytes(s, encoding="utf-8")`. -/
def strToBytes (s : String) : List Nat := s.data.flatMap (fun c => utf8Bytes c.toNat)

/-- Is a UTF-8 continuation byte. -/
def isCont (b : Nat) : Bool := 0x80 <= b && b < 0xC0

/-- UTF-8 decoding state machine.  The first argument is the pending
multi-byte sequence: accumulated value, continuation bytes still
expected, and the smallest code point the sequence may legally produce
(the overlong bound). -/
def utf8DecodeAux : Option (Nat × Nat × Nat) → List Nat → Option (List Nat)
  | none, [] => some []
  | some _, [] => none
  | none, b :: bs =>
      if b < 0x80 then (utf8DecodeAux none bs).map (b :: .)
      else if b < 0xC0 then none
      else if b < 0xE0 then utf8DecodeAux (some (b - 0xC0, 1, 0x80)) bs
      else if b < 0xF0 then utf8DecodeAux (some (b - 0xE0, 2, 0x800)) bs
      else if b < 0xF8 then utf8DecodeAux (some (b - 0xF0, 3, 0x10000)) bs
      else none
  | some (acc, need, mn), b :: bs =>
      if isCont b then
        let acc2 := acc * 64 + (b - 0x80)
        if need = 1 then
          if acc2 < mn || (0xD800 <= acc2 && acc2 < 0xE000) || 0x110000 <= acc2 then none
          else (utf8DecodeAux none bs).map (acc2 :: .)
        else utf8DecodeAux (some (acc2, need - 1, mn)) bs
      else none

/-- UTF-8 decoding to code points, Python `bytes.decode("utf-8")`:
`none` models a `UnicodeDecodeError` (bad leading byte, truncated or
malformed continuation, overlong form, surrogate, or out of range). -/
def utf8Decode (bs : List Nat) : Option (List Nat) := utf8DecodeAux none bs

/-- Decoding a pure ASCII byte string returns it unchanged. -/
theorem utf8DecodeAux_ascii : ∀ bs : List Nat, (∀ b ∈ bs, b < 0x80) →
    utf8DecodeAux none bs = some bs
  | [], _ => rfl
  | b :: bs, h => by
      have hb : b < 0x80 := h b (by simp)
      have ih := utf8DecodeAux_ascii bs (fun x hx => h x (by simp [hx]))
      simp [utf8DecodeAux, hb, ih]

/-- `utf8Decode` restricted to ASCII bytes is the identity. -/
theorem utf8Decode_ascii (bs : List Nat) (h : ∀ b ∈ bs, b < 0x80) :
    utf8Decode bs = some bs := utf8DecodeAux_ascii bs h

/-- Encoding a pure ASCII code point is the identity. -/
theorem utf8Bytes_ascii {c : Nat} (h : c < 0x80) : utf8Bytes c = [c] := by
  simp [utf8Bytes, h]

/-! ## RoleMapper (`app.py` lines 143-154) -/

/-- Python dict membership plus access: the roles configured for a
group, `none` when the group is not a key of the mapping. -/
def lookupRoles (g : String) (m : List (String × List String)) : Option (List String) :=
  (m.find? (fun e => e.1 = g)).map (fun e => e.2)

/-- `app.py` lines 143-154: start from `roles = []`; when the
`group_mappings` config is truthy (non-empty), append, for each group in
input order, every mapped role in configured order; fall back to
`[default_role]` when the accumulated list is empty. -/
def mapRoles (m : List (String × List String)) (d : String) (gs : List String) :
    List String :=
  let roles :=
    if m.isEmpty then []
    else gs.foldl (fun acc g =>
      match lookupRoles g m with
      | some rs => acc ++ rs
      | none => acc) []
  if roles.length = 0 then [d] else roles

theorem lookupRoles_nil (g : String) : lookupRoles g [] = none := rfl

theorem mapRoles_foldl_append (m : List (String × List String)) :
    ∀ (gs : List String) (acc : List String),
      gs.foldl (fun acc g =>
        match lookupRoles g m with
        | some rs => acc ++ rs
        | none => acc) acc = acc ++ gs.flatMap (fun g => (lookupRoles g m).getD [])
  | [], acc => by simp
  | g :: gs, acc => by
      cases hg : lookupRoles g m with
      | none => simp [List.foldl_cons, hg, mapRoles_foldl_append m gs acc]
      | some rs => simp [List.foldl_cons, hg, mapRoles_foldl_append m gs (acc ++ rs)]

/-- The role list computed by the loop equals the ordered concatenation
of the mapped role lists of the matched groups. -/
theorem mapRoles_eq_flatMap (m : List (String × List String)) (d : String)
    (gs : List String) :
    mapRoles m d gs =
      (if gs.flatMap (fun g => (lookupRoles g m).getD []) = [] then [d]
       else gs.flatMap (fun g => (lookupRoles g m).getD [])) := by
  by_cases hm : m.isEmpty
  · have hnil : ∀ g, lookupRoles g m = none := by
      intro g
      rcases m with _ | ⟨e, m⟩
      · rfl
      · simp [List.isEmpty] at hm
    simp [mapRoles, hm, hnil, List.flatMap]
  · simp only [mapRoles, hm, if_false, mapRoles_foldl_append m gs [], List.nil_append]
    rcases h : gs.flatMap (fun g => (lookupRoles g m).getD []) with _ | ⟨r, rs⟩
    · simp
    · simp

/-! ## Cache key and cache store (`app.py` line 129, `models/cache.py`) -/

/-- `app.py` line 129: the cache key is the fixed string `elastauth-`
followed by the username. -/
def cacheKey (user : String) : String := "elastauth-" ++ user

/-- One redis entry as the `Cache` class touches it: the stored bytes
and the remaining time to live in seconds. -/
structure CacheEntry where
  value : List Nat
  ttl : Int
deriving DecidableEq, Repr

/-- The key-value store behind `models/cache.py`, keyed by strings. -/
abbrev CacheState : Type := List (String × CacheEntry)

/-- `Cache.exists`: `redis.exists(key) > 0`. -/
def cacheExists (st : CacheState) (k : String) : Bool :=
  (st.find? (fun e => e.1 = k)).isSome

/-- `Cache.get`: `redis.get(key)`, `none` when the key is absent
(Python `None`, whose `.decode` raises). -/
def cacheGet (st : CacheState) (k : String) : Option (List Nat) :=
  (st.find? (fun e => e.1 = k)).map (fun e => e.2.value)

/-- `Cache.ttl`: `redis.ttl(key)`; redis returns -2 for a missing
key. -/
def cacheTtl (st : CacheState) (k : String) : Int :=
  match st.find? (fun e => e.1 = k) with
  | some e => e.2.ttl
  | none => -2

/-- `Cache.set`: `redis.set(key, value, self.time_to_live)` overwrites
the value and starts a fresh TTL. -/
def cacheSet (st : CacheState) (k : String) (v : List Nat) (ttl : Int) : CacheState :=
  if cacheExists st k then
    st.map (fun e => if e.1 = k then (k, CacheEntry.mk v ttl) else e)
  else
    st ++ [(k, CacheEntry.mk v ttl)]

/-- `Cache.expire`: `redis.expire(key, self.time_to_live)` resets the
TTL, leaving the value alone; no effect on a missing key. -/
def cacheExpire (st : CacheState) (k : String) (ttl : Int) : CacheState :=
  st.map (fun e => if e.1 = k then (e.1, CacheEntry.mk e.2.value ttl) else e)

/-! ## DirectoryClient (`models/elasticsearch.py`) -/

/-- `models/elasticsearch.py` lines 7-10. -/
inductive UserCreationState where
  | CREATED
  | UPDATED
  | ERROR
deriving DecidableEq, Repr

/-- Python exceptions the request path can see.  `typeError` is what the
interpreter raises when a `raise` statement is given a value that is not
a `BaseException` subclass, such as the `UserCreationState.ERROR` enum
member.  Only `appException` is caught by the handler at `app.py` line
189. -/
inductive PyExc where
  | appException (msg : String)
  | typeError (msg : String)
  | attributeError (msg : String)
  | unicodeDecodeError
deriving DecidableEq, Repr

/-- `Elasticsearch.update_user`, lines 45-53, as a function of the HTTP
status of the POST and of whether the response body has a truthy
`created` field.  When the status is not 200 the code executes
`raise UserCreationState.ERROR`; the raised value is not an exception,
so the interpreter turns it into a `TypeError`. -/
def update_user (status : Nat) (created : Bool) : Except PyExc UserCreationState :=
  if status ≠ 200 then
    Except.error (PyExc.typeError "exceptions must derive from BaseException")
  else
    Except.ok (if created then UserCreationState.CREATED else UserCreationState.UPDATED)

/-! ## CredentialIssuer / HTTP surface (`app.py` lines 117-190) -/

/-- Python `str.split(",")` on the character list: split at every
comma, keeping empty pieces; the empty string yields `[""]`. -/
def splitCommaChars : List Char → List (List Char)
  | [] => [[]]
  | c :: rest =>
      let r := splitCommaChars rest
      if c = ',' then [] :: r
      else
        match r with
        | h :: t => (c :: h) :: t
        | [] => [[c]]

/-- Python `str.split(",")`, `app.py` line 141. -/
def splitComma (s : String) : List String := (splitCommaChars s.data).map String.mk

/-- Environment and configuration read by the request handler:
`KIBANA_USER_PASSWORD`, `ELASTAUTH_CACHE_EXTEND == "true"`,
`SECRET_KEY`, the `group_mappings` and `default_role` config keys, and
the cache `time_to_live` (`REDIS_EXPIRE_SECONDS`). -/
structure Env where
  kibanaUserPassword : Option String
  cacheExtend : Bool
  secretKey : String
  groupMappings : List (String × List String)
  defaultRole : String
  timeToLive : Int
deriving DecidableEq, Repr

/-- The trusted identity headers of one request; `none` is an absent
header. -/
structure RequestHeaders where
  remoteUser : Option String
  remoteGroups : Option String
  remoteEmail : Option String
  remoteName : Option String
deriving DecidableEq, Repr

/-- Non-deterministic inputs of one request: whether the lazy
Elasticsearch client construction succeeds, the HTTP status and
`created` flag of the upsert POST, the bytes `os.urandom` feeds
`secrets.token_urlsafe`, and the 16 random IV bytes. -/
structure World where
  esConnectOk : Bool
  dirStatus : Nat
  dirCreated : Bool
  randBytes : List Nat
  randIV : List Nat
deriving DecidableEq, Repr

/-- One observed `update_user` POST to the directory service. -/
structure DirCall where
  username : String
  password : String
  email : Option String
  full_name : Option String
  groups : List String
  roles : List String
deriving DecidableEq, Repr

/-- The HTTP outcome of `GET /`: the static informational body, a 200
response carrying the decoded password (as code points) and the
`Authorization` header value (as ASCII codes), the handled 500 with an
error message (`except AppException` at line 189), or an unhandled
Python exception surfacing as a bare 500. -/
inductive HttpResp where
  | infoPage
  | ok (password : List Nat) (authHeader : List Nat)
  | appError (msg : String)
  | pyError (e : PyExc)
deriving DecidableEq, Repr

/-- Result of one request: the response, the final cache state, the
directory calls made and the cache writes made via `set`. -/
structure RunOut where
  resp : HttpResp
  cache : CacheState
  dirCalls : List DirCall
  cacheSets : List (String × List Nat)
deriving DecidableEq, Repr

/-- Python truthiness of an optional header value: absent or empty. -/
def isFalsy : Option String → Bool
  | none => true
  | some s => s = ""

/-- Build a string from ASCII codes, for `token_urlsafe` output. -/
def asciiString (ns : List Nat) : String := String.mk (ns.map Char.ofNat)

/-- ASCII codes of a string literal. -/
def asciiCodes (s : String) : List Nat := s.data.map Char.toNat

/-- `app.py` lines 181-185: `Basic base64(user:password)` where the
password code points are encoded back to bytes. -/
def basicAuthValue (user : String) (pw : List Nat) : List Nat :=
  asciiCodes "Basic " ++ b64encode (strToBytes user ++ [58] ++ pw.flatMap utf8Bytes)

/-- `app.py` lines 173-187: optionally extend the TTL of a valid cache
entry, then read the entry back, decrypt it, decode it as UTF-8 and
assemble the response headers. -/
def buildResponse (P : CipherPrims) (env : Env) (user key : String)
    (cache1 : CacheState) (dcs : List DirCall) (sets : List (String × List Nat)) :
    RunOut :=
  let cache2 :=
    if env.cacheExtend ∧ 0 < cacheTtl cache1 key ∧ cacheTtl cache1 key < env.timeToLive
    then cacheExpire cache1 key env.timeToLive
    else cache1
  match cacheGet cache2 key with
  | none => RunOut.mk
      (HttpResp.pyError (PyExc.attributeError "NoneType object has no attribute decode"))
      cache2 dcs sets
  | some ct =>
      match utf8Decode (decrypt P ct (strToBytes env.secretKey)) with
      | none => RunOut.mk (HttpResp.pyError PyExc.unicodeDecodeError) cache2 dcs sets
      | some pw => RunOut.mk (HttpResp.ok pw (basicAuthValue user pw)) cache2 dcs sets

/-- The `GET /` handler `check_user`, `app.py` lines 117-190, as a
function of the environment, the request headers, the world inputs and
the cache state.  Note two places where the code diverges from the
prose around it: `get_user_attribute` raises for a missing username, so
the informational branch at line 121 is dead; and a missing groups
header raises an uncaught `AttributeError` at line 141. -/
def check_user (P : CipherPrims) (env : Env) (hdrs : RequestHeaders) (w : World)
    (cache0 : CacheState) : RunOut :=
  if isFalsy hdrs.remoteUser then
    RunOut.mk (HttpResp.appError "Header not provided: Remote-User") cache0 [] []
  else if isFalsy hdrs.remoteUser then
    RunOut.mk HttpResp.infoPage cache0 [] []
  else
    let user := hdrs.remoteUser.getD ""
    let key := cacheKey user
    if ¬ cacheExists cache0 key ∨ cacheTtl cache0 key ≤ 0 then
      let password :=
        (env.kibanaUserPassword).getD (asciiString (token_urlsafe w.randBytes))
      if ¬ w.esConnectOk then
        RunOut.mk (HttpResp.appError "Error whilst connecting to elasticsearch")
          cache0 [] []
      else
        match hdrs.remoteGroups with
        | none =>
            RunOut.mk (HttpResp.pyError (PyExc.attributeError
              "NoneType object has no attribute split")) cache0 [] []
        | some gstr =>
            let user_groups := splitComma gstr
            let roles := mapRoles env.groupMappings env.defaultRole user_groups
            let call := DirCall.mk user password hdrs.remoteEmail hdrs.remoteName
              user_groups roles
            match update_user w.dirStatus w.dirCreated with
            | Except.error e => RunOut.mk (HttpResp.pyError e) cache0 [call] []
            | Except.ok st =>
                if st = UserCreationState.ERROR then
                  RunOut.mk (HttpResp.appError "Erorr whilst creating/updating user")
                    cache0 [call] []
                else
                  let ct := encrypt P (strToBytes password) (strToBytes env.secretKey)
                    w.randIV
                  buildResponse P env user key (cacheSet cache0 key ct env.timeToLive)
                    [call] [(key, ct)]
    else
      buildResponse P env user key cache0 [] []

/-! ## Cache store lemmas -/

/-- A key-preserving per-entry map commutes with keyed lookup. -/
theorem find?_key_map (f : String × CacheEntry → String × CacheEntry)
    (hf : ∀ e, (f e).1 = e.1) (k : String) :
    ∀ st : CacheState,
      (st.map f).find? (fun e => e.1 = k) = (st.find? (fun e => e.1 = k)).map f
  | [] => rfl
  | e :: st => by
      by_cases h : e.1 = k
      · rw [List.map_cons, List.find?_cons_of_pos _ (by simp [hf, h]),
          List.find?_cons_of_pos _ (by simp [h])]
        rfl
      · rw [List.map_cons, List.find?_cons_of_neg _ (by simp [hf, h]),
          List.find?_cons_of_neg _ (by simp [h]), find?_key_map f hf k st]

theorem expire_key_preserving (k : String) (t : Int) :
    ∀ e : String × CacheEntry,
      ((fun e => if e.1 = k then (e.1, CacheEntry.mk e.2.value t) else e) e).1 = e.1 := by
  intro e
  by_cases h : e.1 = k <;> simp [h]

theorem cacheExists_expire (st : CacheState) (k : String) (t : Int) :
    cacheExists (cacheExpire st k t) k = cacheExists st k := by
  simp only [cacheExists, cacheExpire, find?_key_map _ (expire_key_preserving k t) k st]
  cases st.find? (fun e => e.1 = k) <;> rfl

theorem cacheGet_expire (st : CacheState) (k : String) (t : Int) :
    cacheGet (cacheExpire st k t) k = cacheGet st k := by
  simp only [cacheGet, cacheExpire, find?_key_map _ (expire_key_preserving k t) k st]
  cases hf : st.find? (fun e => e.1 = k) with
  | none => rfl
  | some e =>
      have hk : e.1 = k := by simpa using List.find?_some hf
      by_cases h : e.1 = k <;> simp [h, hk]

theorem cacheTtl_expire_of_exists (st : CacheState) (k : String) (t : Int)
    (hex : cacheExists st k = true) : cacheTtl (cacheExpire st k t) k = t := by
  simp only [cacheTtl, cacheExpire, find?_key_map _ (expire_key_preserving k t) k st]
  cases hf : st.find? (fun e => e.1 = k) with
  | none => simp [cacheExists, hf] at hex
  | some e =>
      have hk : e.1 = k := by simpa using List.find?_some hf
      simp [hk]

theorem cacheGet_isSome_of_exists (st : CacheState) (k : String)
    (hex : cacheExists st k = true) : (cacheGet st k).isSome := by
  simpa [cacheGet, Option.isSome_map, cacheExists] using hex

theorem set_key_preserving (k : String) (v : List Nat) (t : Int) :
    ∀ e : String × CacheEntry,
      ((fun e => if e.1 = k then (k, CacheEntry.mk v t) else e) e).1 = e.1 := by
  intro e
  by_cases h : e.1 = k <;> simp [h]

theorem find?_cacheSet (st : CacheState) (k : String) (v : List Nat) (t : Int) :
    (cacheSet st k v t).find? (fun e => e.1 = k) = some (k, CacheEntry.mk v t) := by
  by_cases hex : cacheExists st k
  · simp only [cacheSet, hex, if_true,
      find?_key_map _ (set_key_preserving k v t) k st]
    cases hf : st.find? (fun e => e.1 = k) with
    | none => simp [cacheExists, hf] at hex
    | some e =>
        have hk : e.1 = k := by simpa using List.find?_some hf
        simp [hk]
  · have hn : st.find? (fun e => e.1 = k) = none := by
      cases hf : st.find? (fun e => e.1 = k) with
      | none => rfl
      | some e => simp [cacheExists, hf] at hex
    simp [cacheSet, hex, hn]

theorem cacheExists_set (st : CacheState) (k : String) (v : List Nat) (t : Int) :
    cacheExists (cacheSet st k v t) k = true := by
  simp [cacheExists, find?_cacheSet]

theorem cacheGet_set (st : CacheState) (k : String) (v : List Nat) (t : Int) :
    cacheGet (cacheSet st k v t) k = some v := by
  simp [cacheGet, find?_cacheSet]

theorem cacheTtl_set (st : CacheState) (k : String) (v : List Nat) (t : Int) :
    cacheTtl (cacheSet st k v t) k = t := by
  simp [cacheTtl, find?_cacheSet]

/-! ## Request-path lemmas -/

theorem buildResponse_cache (P : CipherPrims) (env : Env) (user key : String)
    (c1 : CacheState) (dcs : List DirCall) (sets : List (String × List Nat)) :
    (buildResponse P env user key c1 dcs sets).cache =
      (if env.cacheExtend ∧ 0 < cacheTtl c1 key ∧ cacheTtl c1 key < env.timeToLive
       then cacheExpire c1 key env.timeToLive else c1) := by
  simp only [buildResponse]
  split
  · rfl
  · split <;> rfl

theorem buildResponse_dirCalls (P : CipherPrims) (env : Env) (user key : String)
    (c1 : CacheState) (dcs : List DirCall) (sets : List (String × List Nat)) :
    (buildResponse P env user key c1 dcs sets).dirCalls = dcs := by
  simp only [buildResponse]
  split
  · rfl
  · split <;> rfl

theorem buildResponse_cacheSets (P : CipherPrims) (env : Env) (user key : String)
    (c1 : CacheState) (dcs : List DirCall) (sets : List (String × List Nat)) :
    (buildResponse P env user key c1 dcs sets).cacheSets = sets := by
  simp only [buildResponse]
  split
  · rfl
  · split <;> rfl

theorem buildResponse_resp (P : CipherPrims) (env : Env) (user key : String)
    (c1 : CacheState) (dcs : List DirCall) (sets : List (String × List Nat)) :
    (buildResponse P env user key c1 dcs sets).resp =
      (match cacheGet c1 key with
       | none => HttpResp.pyError
           (PyExc.attributeError "NoneType object has no attribute decode")
       | some ct =>
         match utf8Decode (decrypt P ct (strToBytes env.secretKey)) with
         | none => HttpResp.pyError PyExc.unicodeDecodeError
         | some pw => HttpResp.ok pw (basicAuthValue user pw)) := by
  simp only [buildResponse]
  have hget : cacheGet
      (if env.cacheExtend ∧ 0 < cacheTtl c1 key ∧ cacheTtl c1 key < env.timeToLive
       then cacheExpire c1 key env.timeToLive else c1) key = cacheGet c1 key := by
    split
    · exact cacheGet_expire c1 key env.timeToLive
    · rfl
  rw [hget]
  cases cacheGet c1 key with
  | none => rfl
  | some ct =>
      dsimp only
      rcases h : utf8Decode (decrypt P ct (strToBytes env.secretKey)) with _ | pw <;>
        simp [h]

theorem buildResponse_resp_ne_appError (P : CipherPrims) (env : Env) (user key : String)
    (c1 : CacheState) (dcs : List DirCall) (sets : List (String × List Nat))
    (m : String) :
    (buildResponse P env user key c1 dcs sets).resp ≠ HttpResp.appError m := by
  rw [buildResponse_resp]
  cases cacheGet c1 key with
  | none => simp
  | some ct =>
      dsimp only
      rcases h : utf8Decode (decrypt P ct (strToBytes env.secretKey)) with _ | pw <;>
        simp [h]

theorem check_user_hit (P : CipherPrims) (env : Env) (hdrs : RequestHeaders)
    (w : World) (cache0 : CacheState) (u : String)
    (hu : hdrs.remoteUser = some u) (hne : u ≠ "")
    (hex : cacheExists cache0 (cacheKey u) = true)
    (htl : 0 < cacheTtl cache0 (cacheKey u)) :
    check_user P env hdrs w cache0 = buildResponse P env u (cacheKey u) cache0 [] [] := by
  have hfal : isFalsy (some u) = false := by simp [isFalsy, hne]
  simp only [check_user, hu, hfal, Bool.false_eq_true, if_false, Option.getD_some]
  rw [if_neg]
  push_neg
  exact ⟨by simp [hex], by omega⟩

theorem check_user_miss_upsert_error (P : CipherPrims) (env : Env)
    (hdrs : RequestHeaders) (w : World) (cache0 : CacheState) (u gstr : String)
    (hu : hdrs.remoteUser = some u) (hne : u ≠ "")
    (hmiss : ¬ cacheExists cache0 (cacheKey u) = true
      ∨ cacheTtl cache0 (cacheKey u) ≤ 0)
    (hes : w.esConnectOk = true)
    (hg : hdrs.remoteGroups = some gstr)
    (hst : w.dirStatus ≠ 200) :
    check_user P env hdrs w cache0 = RunOut.mk
      (HttpResp.pyError (PyExc.typeError "exceptions must derive from BaseException"))
      cache0
      [DirCall.mk u
        ((env.kibanaUserPassword).getD (asciiString (token_urlsafe w.randBytes)))
        hdrs.remoteEmail hdrs.remoteName (splitComma gstr)
        (mapRoles env.groupMappings env.defaultRole (splitComma gstr))]
      [] := by
  have hfal : isFalsy (some u) = false := by simp [isFalsy, hne]
  have hupd : update_user w.dirStatus w.dirCreated =
      Except.error (PyExc.typeError "exceptions must derive from BaseException") := by
    simp [update_user, hst]
  simp only [check_user, hu, hfal, Bool.false_eq_true, if_false, Option.getD_some]
  rw [if_pos hmiss]
  simp only [hes, hg, hupd]
  simp

theorem check_user_miss_no_groups (P : CipherPrims) (env : Env)
    (hdrs : RequestHeaders) (w : World) (cache0 : CacheState) (u : String)
    (hu : hdrs.remoteUser = some u) (hne : u ≠ "")
    (hmiss : ¬ cacheExists cache0 (cacheKey u) = true
      ∨ cacheTtl cache0 (cacheKey u) ≤ 0)
    (hes : w.esConnectOk = true)
    (hg : hdrs.remoteGroups = none) :
    check_user P env hdrs w cache0 = RunOut.mk
      (HttpResp.pyError (PyExc.attributeError "NoneType object has no attribute split"))
      cache0 [] [] := by
  have hfal : isFalsy (some u) = false := by simp [isFalsy, hne]
  simp only [check_user, hu, hfal, Bool.false_eq_true, if_false, Option.getD_some]
  rw [if_pos hmiss]
  simp only [hes, hg]
  simp

theorem update_user_ok_ne_ERROR (status : Nat) (created : Bool)
    (st : UserCreationState) (h : update_user status created = Except.ok st) :
    st ≠ UserCreationState.ERROR := by
  intro hERR
  subst hERR
  by_cases hs : status = 200
  · subst hs
    rw [update_user, if_neg (by simp)] at h
    cases created <;> simp at h
  · rw [update_user, if_pos hs] at h
    simp at h

/-! ## ASCII and token support lemmas -/

theorem toNat_char_ofNat {n : Nat} (h : n < 0xD800) : (Char.ofNat n).toNat = n := by
  have hv : n.isValidChar := Or.inl h
  rw [Char.ofNat, dif_pos hv]
  rfl

/-- Byte serialisation of a string built from ASCII codes is those
codes. -/
theorem strToBytes_asciiString (ns : List Nat) (h : ∀ n ∈ ns, n < 0x80) :
    strToBytes (asciiString ns) = ns := by
  induction ns with
  | nil => rfl
  | cons n ns ih =>
      have hn : n < 0x80 := h n (by simp)
      have hrest := ih (fun x hx => h x (by simp [hx]))
      simp only [strToBytes, asciiString, List.map_cons, List.flatMap_cons] at hrest ⊢
      rw [toNat_char_ofNat (by omega), utf8Bytes_ascii hn, hrest]
      rfl

theorem b64chr_lt_128 (n : Nat) : b64chr n < 128 := by
  simp only [b64chr]
  split_ifs <;> omega

theorem b64urlchr_lt_128 (n : Nat) : b64urlchr n < 128 := by
  have := b64chr_lt_128 n
  simp only [b64urlchr]
  split_ifs <;> omega

theorem b64encodeWith_url_lt_128 : ∀ bs : List Nat,
    ∀ x ∈ b64encodeWith b64urlchr bs, x < 128
  | [], _ => by simp [b64encodeWith]
  | [a], x => by
      simp only [b64encodeWith, List.mem_cons, List.not_mem_nil, or_false]
      rintro (rfl | rfl | rfl | rfl) <;> first | exact b64urlchr_lt_128 _ | omega
  | [a, b], x => by
      simp only [b64encodeWith, List.mem_cons, List.not_mem_nil, or_false]
      rintro (rfl | rfl | rfl | rfl) <;> first | exact b64urlchr_lt_128 _ | omega
  | a :: b :: c :: rest, x => by
      simp only [b64encodeWith, List.mem_cons]
      rintro (rfl | rfl | rfl | rfl | hmem)
      · exact b64urlchr_lt_128 _
      · exact b64urlchr_lt_128 _
      · exact b64urlchr_lt_128 _
      · exact b64urlchr_lt_128 _
      · exact b64encodeWith_url_lt_128 rest x hmem

/-- Every character of a generated token is ASCII. -/
theorem token_urlsafe_lt_128 (bs : List Nat) : ∀ x ∈ token_urlsafe bs, x < 128 := by
  intro x hx
  exact b64encodeWith_url_lt_128 bs x ((List.takeWhile_sublist _).subset hx)

/-- The success path of a cache miss: upsert accepted (status 200),
password encrypted and written to the cache, response assembled from the
fresh entry. -/
theorem check_user_miss_success (P : CipherPrims) (env : Env)
    (hdrs : RequestHeaders) (w : World) (cache0 : CacheState) (u gstr : String)
    (hu : hdrs.remoteUser = some u) (hne : u ≠ "")
    (hmiss : ¬ cacheExists cache0 (cacheKey u) = true
      ∨ cacheTtl cache0 (cacheKey u) ≤ 0)
    (hes : w.esConnectOk = true)
    (hg : hdrs.remoteGroups = some gstr)
    (hst : w.dirStatus = 200) :
    check_user P env hdrs w cache0 =
      buildResponse P env u (cacheKey u)
        (cacheSet cache0 (cacheKey u)
          (encrypt P
            (strToBytes ((env.kibanaUserPassword).getD
              (asciiString (token_urlsafe w.randBytes))))
            (strToBytes env.secretKey) w.randIV)
          env.timeToLive)
        [DirCall.mk u
          ((env.kibanaUserPassword).getD (asciiString (token_urlsafe w.randBytes)))
          hdrs.remoteEmail hdrs.remoteName (splitComma gstr)
          (mapRoles env.groupMappings env.defaultRole (splitComma gstr))]
        [((cacheKey u),
          encrypt P
            (strToBytes ((env.kibanaUserPassword).getD
              (asciiString (token_urlsafe w.randBytes))))
            (strToBytes env.secretKey) w.randIV)] := by
  have hfal : isFalsy (some u) = false := by simp [isFalsy, hne]
  have hupd : update_user w.dirStatus w.dirCreated = Except.ok
      (if w.dirCreated then UserCreationState.CREATED else UserCreationState.UPDATED) := by
    simp [update_user, hst]
  simp only [check_user, hu, hfal, Bool.false_eq_true, if_false, Option.getD_some]
  rw [if_pos hmiss]
  simp only [hes, hg, hupd]
  cases w.dirCreated <;> simp

/-! ## Concrete fixtures for witnesses -/

/-- Concrete cipher primitives standing in for MD5 and AES in closed
computations. -/
def demoPrims : CipherPrims :=
  CipherPrims.mk (fun _ => List.replicate 16 7)
    (fun key block => block.map (fun b => (b + key.headD 0) % 256))

/-- A concrete environment: no fixed password, extension off. -/
def demoEnv : Env :=
  Env.mk none false "sk" [("eng", ["editor"]), ("ops", ["viewer", "admin"])]
    "viewer" 3600

/-- A concrete healthy world: upsert accepted with status 200. -/
def demoWorld : World :=
  World.mk true 200 true (List.replicate 13 0) (List.replicate 16 0)

/-- A concrete world where the upsert POST returns status 500. -/
def demoWorldFail : World :=
  World.mk true 500 false (List.replicate 13 0) (List.replicate 16 0)

/-- Concrete request headers with a username and a groups header. -/
def aliceHeaders : RequestHeaders :=
  RequestHeaders.mk (some "alice") (some "eng") none none

/-! ## Claim theorems -/

/-- C1: what the code does on a request with no Remote-User header.  The
claim says the response is the 200 informational page with no cache or
directory calls; in the code `get_user_attribute` raises an
`AppException` first, so the handler returns the 500 error body naming
the missing header (the informational branch at line 121 is dead); no
cache write and no directory call happens. -/
theorem missing_user_header_behavior (P : CipherPrims) (env : Env)
    (hdrs : RequestHeaders) (w : World) (cache0 : CacheState)
    (h : hdrs.remoteUser = none) :
    check_user P env hdrs w cache0 =
      RunOut.mk (HttpResp.appError "Header not provided: Remote-User") cache0 [] [] := by
  simp [check_user, isFalsy, h]

theorem missing_user_header_behavior_witness :
    check_user demoPrims demoEnv (RequestHeaders.mk none none none none) demoWorld [] =
      RunOut.mk (HttpResp.appError "Header not provided: Remote-User") [] [] [] :=
  missing_user_header_behavior demoPrims demoEnv
    (RequestHeaders.mk none none none none) demoWorld [] rfl

/-- C2: on a cache miss, when the directory upsert reports a non-200
status, `CacheStore.set` is never called and the cache state is left
byte-for-byte unchanged, but the issuer does not return the handled
500 tagged error carrying the cause: `raise UserCreationState.ERROR`
raises a value that is not an exception, so the request dies with an
unhandled `TypeError` (bare 500). -/
theorem upsert_failure_behavior (P : CipherPrims) (env : Env)
    (hdrs : RequestHeaders) (w : World) (cache0 : CacheState) (u gstr : String)
    (hu : hdrs.remoteUser = some u) (hne : u ≠ "")
    (hmiss : ¬ cacheExists cache0 (cacheKey u) = true
      ∨ cacheTtl cache0 (cacheKey u) ≤ 0)
    (hes : w.esConnectOk = true) (hg : hdrs.remoteGroups = some gstr)
    (hst : w.dirStatus ≠ 200) :
    (check_user P env hdrs w cache0).resp =
      HttpResp.pyError (PyExc.typeError "exceptions must derive from BaseException") ∧
    (check_user P env hdrs w cache0).cacheSets = [] ∧
    (check_user P env hdrs w cache0).cache = cache0 := by
  rw [check_user_miss_upsert_error P env hdrs w cache0 u gstr hu hne hmiss hes hg hst]
  exact ⟨rfl, rfl, rfl⟩

theorem upsert_failure_behavior_witness :
    (check_user demoPrims demoEnv aliceHeaders demoWorldFail []).resp =
      HttpResp.pyError (PyExc.typeError "exceptions must derive from BaseException") ∧
    (check_user demoPrims demoEnv aliceHeaders demoWorldFail []).cacheSets = [] ∧
    (check_user demoPrims demoEnv aliceHeaders demoWorldFail []).cache = [] :=
  upsert_failure_behavior demoPrims demoEnv aliceHeaders demoWorldFail [] "alice" "eng"
    rfl (by decide) (Or.inl (by decide)) rfl rfl (by decide)

/-- C3: for every non-empty plaintext byte string, every passphrase and
every 16-byte IV, decryption inverts encryption, for arbitrary digest
and block-cipher primitives (hence for MD5 and AES). -/
theorem cipher_roundtrip (P : CipherPrims) (p k IV : List Nat)
    (hp : p ≠ []) (hpb : ∀ b ∈ p, b < 256)
    (hIVlen : IV.length = BLOCK_SIZE) (hIVb : ∀ b ∈ IV, b < 256) :
    decrypt P (encrypt P p k IV) k = p :=
  decrypt_encrypt P p k IV hIVlen hIVb hpb

theorem cipher_roundtrip_witness :
    ([1, 2, 3] : List Nat) ≠ [] ∧
    decrypt demoPrims (encrypt demoPrims [1, 2, 3] [9] (List.replicate 16 5)) [9]
      = [1, 2, 3] :=
  ⟨by decide, cipher_roundtrip demoPrims [1, 2, 3] [9] (List.replicate 16 5)
    (by decide) (by decide) (by decide) (by decide)⟩

/-- C4: the computed role list is the concatenation, over the groups in
input order, of the mapped roles of each matched group in configured
order with duplicates kept, falling back to the single default role
when that concatenation is empty; and the concrete example from the
specification holds. -/
theorem mapRoles_spec :
    (∀ (m : List (String × List String)) (d : String) (gs : List String),
      mapRoles m d gs =
        (if gs.flatMap (fun g => (lookupRoles g m).getD []) = [] then [d]
         else gs.flatMap (fun g => (lookupRoles g m).getD []))) ∧
    mapRoles [("eng", ["editor"]), ("ops", ["viewer", "admin"])] "dflt" ["eng", "ops"]
      = ["editor", "viewer", "admin"] ∧
    (∀ (m : List (String × List String)) (d : String), mapRoles m d [] = [d]) := by
  refine ⟨mapRoles_eq_flatMap, by decide, fun m d => ?_⟩
  simp [mapRoles]

/-- C9: the cache key is a pure deterministic function of the username,
and distinct usernames give distinct keys. -/
theorem cacheKey_deterministic_injective :
    (∀ u : String, cacheKey u = cacheKey u) ∧
    (∀ u v : String, u ≠ v → cacheKey u ≠ cacheKey v) := by
  refine ⟨fun u => rfl, fun u v huv h => huv ?_⟩
  have hd := congrArg String.data h
  simp only [cacheKey, String.data_append] at hd
  exact String.ext (List.append_cancel_left hd)

theorem cacheKey_deterministic_injective_witness :
    cacheKey "alice" ≠ cacheKey "bob" :=
  cacheKey_deterministic_injective.2 "alice" "bob" (by decide)

/-- C5: with a valid (existing, unexpired) cache entry, an issue call
makes no directory call, and a second issue call on the resulting state
makes no directory call either and returns the identical response,
hence the identical plaintext password, whatever the fresh randomness
of either call. -/
theorem issue_idempotent (P : CipherPrims) (env : Env) (hdrs : RequestHeaders)
    (w1 w2 : World) (cache0 : CacheState) (u : String)
    (hu : hdrs.remoteUser = some u) (hne : u ≠ "")
    (hex : cacheExists cache0 (cacheKey u) = true)
    (htl : 0 < cacheTtl cache0 (cacheKey u)) :
    (check_user P env hdrs w1 cache0).dirCalls = [] ∧
    (check_user P env hdrs w2 ((check_user P env hdrs w1 cache0).cache)).dirCalls = [] ∧
    (check_user P env hdrs w2 ((check_user P env hdrs w1 cache0).cache)).resp =
      (check_user P env hdrs w1 cache0).resp := by
  have h1 := check_user_hit P env hdrs w1 cache0 u hu hne hex htl
  have hc1 : (check_user P env hdrs w1 cache0).cache =
      (if env.cacheExtend ∧ 0 < cacheTtl cache0 (cacheKey u)
          ∧ cacheTtl cache0 (cacheKey u) < env.timeToLive
       then cacheExpire cache0 (cacheKey u) env.timeToLive else cache0) := by
    rw [h1, buildResponse_cache]
  by_cases hext : env.cacheExtend ∧ 0 < cacheTtl cache0 (cacheKey u)
      ∧ cacheTtl cache0 (cacheKey u) < env.timeToLive
  · have hc1e : (check_user P env hdrs w1 cache0).cache =
        cacheExpire cache0 (cacheKey u) env.timeToLive := by rw [hc1, if_pos hext]
    have hex2 : cacheExists (cacheExpire cache0 (cacheKey u) env.timeToLive)
        (cacheKey u) = true := by rw [cacheExists_expire]; exact hex
    have htl2 : 0 < cacheTtl (cacheExpire cache0 (cacheKey u) env.timeToLive)
        (cacheKey u) := by
      rw [cacheTtl_expire_of_exists cache0 (cacheKey u) env.timeToLive hex]
      rcases hext with ⟨_, h0, hlt⟩
      omega
    have h2 := check_user_hit P env hdrs w2
      (cacheExpire cache0 (cacheKey u) env.timeToLive) u hu hne hex2 htl2
    refine ⟨by rw [h1, buildResponse_dirCalls], ?_, ?_⟩
    · rw [hc1e, h2, buildResponse_dirCalls]
    · rw [hc1e, h2, h1, buildResponse_resp, buildResponse_resp, cacheGet_expire]
  · have hc1e : (check_user P env hdrs w1 cache0).cache = cache0 := by
      rw [hc1, if_neg hext]
    have h2 := check_user_hit P env hdrs w2 cache0 u hu hne hex htl
    refine ⟨by rw [h1, buildResponse_dirCalls], ?_, ?_⟩
    · rw [hc1e, h2, buildResponse_dirCalls]
    · rw [hc1e, h2, h1]

/-- A concrete warm cache with one entry for alice, 10 seconds left. -/
def warmCache : CacheState :=
  [(("elastauth-" ++ "alice" : String), CacheEntry.mk [1, 2, 3] 10)]

theorem issue_idempotent_witness :
    (check_user demoPrims demoEnv aliceHeaders demoWorld warmCache).dirCalls = [] ∧
    (check_user demoPrims demoEnv aliceHeaders demoWorldFail
      ((check_user demoPrims demoEnv aliceHeaders demoWorld warmCache).cache)).dirCalls
      = [] ∧
    (check_user demoPrims demoEnv aliceHeaders demoWorldFail
      ((check_user demoPrims demoEnv aliceHeaders demoWorld warmCache).cache)).resp =
      (check_user demoPrims demoEnv aliceHeaders demoWorld warmCache).resp :=
  issue_idempotent demoPrims demoEnv aliceHeaders demoWorld demoWorldFail warmCache
    "alice" rfl (by decide) (by decide) (by decide)

/-- C7: for a valid cache entry with remaining TTL t, 0 < t: if the
extension flag is enabled and t is strictly below the configured full
TTL, the run resets the TTL to the full value while leaving the stored
ciphertext unchanged and making no directory call; if the flag is
disabled or t is not below the full TTL, the cache state is not
touched at all. -/
theorem cache_extension_policy (P : CipherPrims) (env : Env) (hdrs : RequestHeaders)
    (w : World) (cache0 : CacheState) (u : String)
    (hu : hdrs.remoteUser = some u) (hne : u ≠ "")
    (hex : cacheExists cache0 (cacheKey u) = true)
    (htl : 0 < cacheTtl cache0 (cacheKey u)) :
    (env.cacheExtend = true → cacheTtl cache0 (cacheKey u) < env.timeToLive →
      cacheTtl (check_user P env hdrs w cache0).cache (cacheKey u) = env.timeToLive ∧
      cacheGet (check_user P env hdrs w cache0).cache (cacheKey u) =
        cacheGet cache0 (cacheKey u) ∧
      (check_user P env hdrs w cache0).dirCalls = []) ∧
    ((env.cacheExtend = false ∨ env.timeToLive ≤ cacheTtl cache0 (cacheKey u)) →
      (check_user P env hdrs w cache0).cache = cache0) := by
  have h1 := check_user_hit P env hdrs w cache0 u hu hne hex htl
  have hc1 : (check_user P env hdrs w cache0).cache =
      (if env.cacheExtend ∧ 0 < cacheTtl cache0 (cacheKey u)
          ∧ cacheTtl cache0 (cacheKey u) < env.timeToLive
       then cacheExpire cache0 (cacheKey u) env.timeToLive else cache0) := by
    rw [h1, buildResponse_cache]
  constructor
  · intro hflag hlt
    have hext : env.cacheExtend ∧ 0 < cacheTtl cache0 (cacheKey u)
        ∧ cacheTtl cache0 (cacheKey u) < env.timeToLive := ⟨hflag, htl, hlt⟩
    refine ⟨?_, ?_, ?_⟩
    · rw [hc1, if_pos hext, cacheTtl_expire_of_exists cache0 (cacheKey u) _ hex]
    · rw [hc1, if_pos hext, cacheGet_expire]
    · rw [h1, buildResponse_dirCalls]
  · intro hdis
    have hnext : ¬ (env.cacheExtend ∧ 0 < cacheTtl cache0 (cacheKey u)
        ∧ cacheTtl cache0 (cacheKey u) < env.timeToLive) := by
      rcases hdis with hf | hge
      · rintro ⟨hf2, _, _⟩
        rw [hf] at hf2
        exact Bool.false_ne_true hf2
      · rintro ⟨_, _, hlt⟩
        omega
    rw [hc1, if_neg hnext]

/-- An environment with the TTL-extension flag switched on. -/
def envExt : Env :=
  Env.mk none true "sk" [("eng", ["editor"]), ("ops", ["viewer", "admin"])]
    "viewer" 3600

theorem cache_extension_policy_witness :
    cacheTtl (check_user demoPrims envExt aliceHeaders demoWorld warmCache).cache
      (cacheKey "alice") = (3600 : Int) ∧
    cacheGet (check_user demoPrims envExt aliceHeaders demoWorld warmCache).cache
      (cacheKey "alice") = cacheGet warmCache (cacheKey "alice") ∧
    (check_user demoPrims envExt aliceHeaders demoWorld warmCache).dirCalls = [] :=
  (cache_extension_policy demoPrims envExt aliceHeaders demoWorld warmCache "alice"
    rfl (by decide) (by decide) (by decide)).1 rfl (by decide)

/-- C8 (amended): a request that reaches role mapping (username present,
cache miss, directory client constructed) with no Remote-Groups header
fails with an uncaught `AttributeError` (`None.split`), producing a bare
500 and making no directory call; it does not fail with the handled
`AppException` naming the missing header. -/
theorem missing_groups_behavior (P : CipherPrims) (env : Env) (hdrs : RequestHeaders)
    (w : World) (cache0 : CacheState) (u : String)
    (hu : hdrs.remoteUser = some u) (hne : u ≠ "")
    (hmiss : ¬ cacheExists cache0 (cacheKey u) = true
      ∨ cacheTtl cache0 (cacheKey u) ≤ 0)
    (hes : w.esConnectOk = true) (hg : hdrs.remoteGroups = none) :
    (check_user P env hdrs w cache0).resp =
      HttpResp.pyError (PyExc.attributeError "NoneType object has no attribute split") ∧
    (check_user P env hdrs w cache0).dirCalls = [] ∧
    (check_user P env hdrs w cache0).cache = cache0 := by
  rw [check_user_miss_no_groups P env hdrs w cache0 u hu hne hmiss hes hg]
  exact ⟨rfl, rfl, rfl⟩

theorem missing_groups_behavior_witness :
    (check_user demoPrims demoEnv (RequestHeaders.mk (some "alice") none none none)
      demoWorld []).resp =
      HttpResp.pyError (PyExc.attributeError "NoneType object has no attribute split") ∧
    (check_user demoPrims demoEnv (RequestHeaders.mk (some "alice") none none none)
      demoWorld []).dirCalls = [] ∧
    (check_user demoPrims demoEnv (RequestHeaders.mk (some "alice") none none none)
      demoWorld []).cache = [] :=
  missing_groups_behavior demoPrims demoEnv
    (RequestHeaders.mk (some "alice") none none none) demoWorld [] "alice"
    rfl (by decide) (Or.inl (by decide)) rfl rfl

/-- C8 counterexample: at a concrete request with a username, an empty
cache and no Remote-Groups header, the response is the unhandled
AttributeError, not a handled `MissingHeaderError` naming the groups
header. -/
theorem missing_groups_counterexample :
    (check_user demoPrims demoEnv (RequestHeaders.mk (some "bob") none none none)
      demoWorld []).resp =
      HttpResp.pyError (PyExc.attributeError "NoneType object has no attribute split") ∧
    (check_user demoPrims demoEnv (RequestHeaders.mk (some "bob") none none none)
      demoWorld []).resp ≠ HttpResp.appError "Header not provided: Remote-Groups" := by
  have h := check_user_miss_no_groups demoPrims demoEnv
    (RequestHeaders.mk (some "bob") none none none) demoWorld [] "bob"
    rfl (by decide) (Or.inl (by decide)) rfl rfl
  rw [h]
  exact ⟨rfl, by decide⟩

/-- The cache-miss path when the Elasticsearch client construction
fails: handled 500 naming the connectivity problem. -/
theorem check_user_miss_no_es (P : CipherPrims) (env : Env) (hdrs : RequestHeaders)
    (w : World) (cache0 : CacheState) (u : String)
    (hu : hdrs.remoteUser = some u) (hne : u ≠ "")
    (hmiss : ¬ cacheExists cache0 (cacheKey u) = true
      ∨ cacheTtl cache0 (cacheKey u) ≤ 0)
    (hes : w.esConnectOk = false) :
    check_user P env hdrs w cache0 = RunOut.mk
      (HttpResp.appError "Error whilst connecting to elasticsearch") cache0 [] [] := by
  have hfal : isFalsy (some u) = false := by simp [isFalsy, hne]
  simp only [check_user, hu, hfal, Bool.false_eq_true, if_false, Option.getD_some]
  rw [if_pos hmiss]
  simp [hes]

/-- C10: `update_user` never returns `UserCreationState.ERROR`: for a
non-200 directory status it raises the enum member, which the
interpreter turns into a TypeError that the AppException handler cannot
catch; for status 200 it returns only CREATED or UPDATED; consequently
the `check_user` branch comparing the result against ERROR and raising
the handled AppException is unreachable. -/
theorem update_user_never_ERROR :
    (∀ (status : Nat) (created : Bool), status ≠ 200 →
      update_user status created =
        Except.error (PyExc.typeError "exceptions must derive from BaseException")) ∧
    (∀ (status : Nat) (created : Bool) (st : UserCreationState),
      update_user status created = Except.ok st → st ≠ UserCreationState.ERROR) ∧
    (∀ (P : CipherPrims) (env : Env) (hdrs : RequestHeaders) (w : World)
        (cache0 : CacheState),
      (check_user P env hdrs w cache0).resp ≠
        HttpResp.appError "Erorr whilst creating/updating user") := by
  refine ⟨fun status created h => by simp [update_user, h],
    update_user_ok_ne_ERROR, ?_⟩
  intro P env hdrs w cache0
  by_cases hfal : isFalsy hdrs.remoteUser = true
  · rw [show check_user P env hdrs w cache0 =
        RunOut.mk (HttpResp.appError "Header not provided: Remote-User") cache0 [] []
      from by simp [check_user, hfal]]
    intro hcontra
    injection hcontra with hs
    exact absurd hs (by decide)
  · rcases hopt : hdrs.remoteUser with _ | u
    · rw [hopt] at hfal
      exact absurd rfl hfal
    · have hne : u ≠ "" := by
        intro hemp
        rw [hopt, hemp] at hfal
        exact hfal rfl
      by_cases hmiss : ¬ cacheExists cache0 (cacheKey u) = true
          ∨ cacheTtl cache0 (cacheKey u) ≤ 0
      · by_cases hes : w.esConnectOk = true
        · rcases hg : hdrs.remoteGroups with _ | gstr
          · rw [check_user_miss_no_groups P env hdrs w cache0 u hopt hne hmiss hes hg]
            intro hcontra
            cases hcontra
          · by_cases hst : w.dirStatus = 200
            · rw [check_user_miss_success P env hdrs w cache0 u gstr hopt hne hmiss
                hes hg hst]
              exact buildResponse_resp_ne_appError P env u (cacheKey u) _ _ _ _
            · rw [check_user_miss_upsert_error P env hdrs w cache0 u gstr hopt hne
                hmiss hes hg hst]
              intro hcontra
              cases hcontra
        · have hes2 : w.esConnectOk = false := by
            cases h2 : w.esConnectOk
            · rfl
            · exact absurd h2 hes
          rw [check_user_miss_no_es P env hdrs w cache0 u hopt hne hmiss hes2]
          intro hcontra
          injection hcontra with hs
          exact absurd hs (by decide)
      · push_neg at hmiss
        rw [check_user_hit P env hdrs w cache0 u hopt hne
          (by simpa using hmiss.1) (by omega)]
        exact buildResponse_resp_ne_appError P env u (cacheKey u) _ _ _ _

theorem update_user_never_ERROR_witness :
    update_user 500 true =
      Except.error (PyExc.typeError "exceptions must derive from BaseException") ∧
    UserCreationState.CREATED ≠ UserCreationState.ERROR ∧
    (check_user demoPrims demoEnv aliceHeaders demoWorld []).resp ≠
      HttpResp.appError "Erorr whilst creating/updating user" :=
  ⟨update_user_never_ERROR.1 500 true (by decide),
   update_user_never_ERROR.2.1 200 true UserCreationState.CREATED rfl,
   update_user_never_ERROR.2.2 demoPrims demoEnv aliceHeaders demoWorld []⟩

/-- C6 (amended): on a cache miss with no operator-supplied fixed
password, the generated password is the URL-safe base64 encoding of the
13 random bytes, the success response carries exactly that token as the
decoded password of the Authorization value, and the token has 18
characters (the base64url image of 13 bytes), not 13. -/
theorem generated_token_shape (P : CipherPrims) (env : Env) (hdrs : RequestHeaders)
    (w : World) (cache0 : CacheState) (u gstr : String)
    (hu : hdrs.remoteUser = some u) (hne : u ≠ "")
    (hnopw : env.kibanaUserPassword = none)
    (hmiss : ¬ cacheExists cache0 (cacheKey u) = true
      ∨ cacheTtl cache0 (cacheKey u) ≤ 0)
    (hes : w.esConnectOk = true) (hg : hdrs.remoteGroups = some gstr)
    (hst : w.dirStatus = 200)
    (hrb : w.randBytes.length = 13) (hrbb : ∀ b ∈ w.randBytes, b < 256)
    (hIVlen : w.randIV.length = 16) (hIVb : ∀ b ∈ w.randIV, b < 256) :
    (check_user P env hdrs w cache0).resp =
      HttpResp.ok (token_urlsafe w.randBytes)
        (basicAuthValue u (token_urlsafe w.randBytes)) ∧
    (token_urlsafe w.randBytes).length = 18 := by
  have htok128 := token_urlsafe_lt_128 w.randBytes
  have htok256 : ∀ b ∈ token_urlsafe w.randBytes, b < 256 :=
    fun b hb => lt_trans (htok128 b hb) (by norm_num)
  have hbytes : strToBytes
      ((env.kibanaUserPassword).getD (asciiString (token_urlsafe w.randBytes)))
      = token_urlsafe w.randBytes := by
    rw [hnopw, Option.getD_none, strToBytes_asciiString _ htok128]
  have hmain := check_user_miss_success P env hdrs w cache0 u gstr hu hne hmiss
    hes hg hst
  rw [hmain, buildResponse_resp, cacheGet_set]
  dsimp only
  have hdec : decrypt P
      (encrypt P (strToBytes ((env.kibanaUserPassword).getD
          (asciiString (token_urlsafe w.randBytes))))
        (strToBytes env.secretKey) w.randIV)
      (strToBytes env.secretKey)
      = strToBytes ((env.kibanaUserPassword).getD
          (asciiString (token_urlsafe w.randBytes))) := by
    apply decrypt_encrypt P _ _ _ hIVlen hIVb
    rw [hbytes]
    exact htok256
  rw [hdec, hbytes, utf8Decode_ascii _ htok128]
  refine ⟨rfl, ?_⟩
  rw [token_urlsafe_length w.randBytes hrbb, hrb]

theorem generated_token_shape_witness :
    (check_user demoPrims demoEnv aliceHeaders demoWorld []).resp =
      HttpResp.ok (token_urlsafe (List.replicate 13 0))
        (basicAuthValue "alice" (token_urlsafe (List.replicate 13 0))) ∧
    (token_urlsafe (List.replicate 13 0)).length = 18 :=
  generated_token_shape demoPrims demoEnv aliceHeaders demoWorld [] "alice" "eng"
    rfl (by decide) rfl (Or.inl (by decide)) rfl rfl rfl (by decide) (by decide)
    (by decide) (by decide)

/-- C6 counterexample: at a concrete cache-miss request with no fixed
password, the issued token does not have 13 characters (it has 18). -/
theorem token_13_chars_counterexample :
    (check_user demoPrims demoEnv aliceHeaders demoWorld []).resp =
      HttpResp.ok (token_urlsafe (List.replicate 13 0))
        (basicAuthValue "alice" (token_urlsafe (List.replicate 13 0))) ∧
    ¬ (token_urlsafe (List.replicate 13 0)).length = 13 := by
  constructor
  · decide
  · decide

end Elastauth
